import Mathlib

set_option maxRecDepth 8000

/-!
Verification of the AI-news-reader ingestion pipeline (src/app.py) against its
natural-language specification.  Python string/JSON behaviour is embedded as
executable Lean functions; the pipeline, status machine and run-trigger route
are shallowly embedded as pure state-passing functions.
-/

namespace NewsReader

/-! ### Python string primitives -/

/-- Characters stripped by Python's `str.strip()` with no argument. -/
def pyIsSpace (c : Char) : Bool :=
  c = ' ' || c = '\t' || c = '\n' || c = '\r' || c = '\x0b' || c = '\x0c'

/-- `str.strip()` on a character list. -/
def stripL (l : List Char) : List Char :=
  ((l.dropWhile pyIsSpace).reverse.dropWhile pyIsSpace).reverse

/-- Python `str.strip()`. -/
def pyStrip (s : String) : String := String.mk (stripL s.data)

/-- `str.lstrip(chars)`: removes leading characters belonging to the set. -/
def pyLStripChars (chars : List Char) (s : String) : String :=
  String.mk (s.data.dropWhile (fun c => c ∈ chars))

/-- `str.rstrip(chars)`: removes trailing characters belonging to the set. -/
def pyRStripChars (chars : List Char) (s : String) : String :=
  String.mk ((s.data.reverse.dropWhile (fun c => c ∈ chars)).reverse)

/-- Backtick character (U+0060). -/
def chBacktick : Char := Char.ofNat 96

/-- Opening curly brace (U+007B). -/
def chLBrace : Char := Char.ofNat 123

/-- Closing curly brace (U+007D). -/
def chRBrace : Char := Char.ofNat 125

/-- Double-quote character (U+0022). -/
def chQuote : Char := Char.ofNat 34

/-- Backslash character (U+005C). -/
def chBackslash : Char := Char.ofNat 92

/-- Python substring test `needle in hay`. -/
def pyContains (hay needle : String) : Bool :=
  hay.data.tails.any (fun t => needle.data.isPrefixOf t)

/-- Python `str.lower()` (ASCII-relevant part). -/
def pyLower (s : String) : String := String.mk (s.data.map Char.toLower)

/-- Python slicing `s[:n]` (by code point). -/
def pySlice (s : String) (n : Nat) : String := String.mk (s.data.take n)

/-! ### Minimal JSON model

Models `json.loads` on the payload shapes the classifier contract uses:
a flat object whose values are `true`, `false` or double-quoted strings
(escapes `\"` and `\\`).  Anything else is reported as unparseable. -/

inductive JsonVal where
  | bool (b : Bool)
  | str (s : String)
deriving DecidableEq, Repr

/-- JSON insignificant whitespace. -/
def jsonWs (c : Char) : Bool := c = ' ' || c = '\t' || c = '\n' || c = '\r'

/-- Parse the body of a JSON string literal (after the opening quote);
returns the decoded characters and the remainder after the closing quote. -/
def parseStrBody : List Char → Option (List Char × List Char)
  | [] => none
  | c :: rest =>
    if c = chQuote then some ([], rest)
    else if c = chBackslash then
      match rest with
      | [] => none
      | e :: rest2 =>
        if e = chQuote then (parseStrBody rest2).map (fun p => (chQuote :: p.1, p.2))
        else if e = chBackslash then
          (parseStrBody rest2).map (fun p => (chBackslash :: p.1, p.2))
        else none
    else (parseStrBody rest).map (fun p => (c :: p.1, p.2))

/-- Parse one JSON value (string or boolean literal). -/
def parseVal (cs : List Char) : Option (JsonVal × List Char) :=
  if cs.head? = some chQuote then
    (parseStrBody (cs.drop 1)).map (fun p => (JsonVal.str (String.mk p.1), p.2))
  else if ['t', 'r', 'u', 'e'].isPrefixOf cs then some (JsonVal.bool true, cs.drop 4)
  else if ['f', 'a', 'l', 's', 'e'].isPrefixOf cs then some (JsonVal.bool false, cs.drop 5)
  else none

/-- Parse the members of a JSON object after the opening brace
(at least one member); fuel-bounded loop. -/
def parseMembers : Nat → List Char → Option (List (String × JsonVal) × List Char)
  | 0, _ => none
  | fuel + 1, cs =>
    let cs1 := cs.dropWhile jsonWs
    if cs1.head? = some chQuote then
      match parseStrBody (cs1.drop 1) with
      | none => none
      | some (k, r1) =>
        let r2 := r1.dropWhile jsonWs
        if r2.head? = some ':' then
          match parseVal ((r2.drop 1).dropWhile jsonWs) with
          | none => none
          | some (v, r3) =>
            let r4 := r3.dropWhile jsonWs
            if r4.head? = some ',' then
              (parseMembers fuel (r4.drop 1)).map
                (fun p => ((String.mk k, v) :: p.1, p.2))
            else if r4.head? = some chRBrace then
              some ([(String.mk k, v)], r4.drop 1)
            else none
        else none
    else none

/-- `json.loads` restricted to flat objects with boolean/string values. -/
def jsonLoads (s : String) : Option (List (String × JsonVal)) :=
  let cs := s.data.dropWhile jsonWs
  if cs.head? = some chLBrace then
    let rest := cs.drop 1
    if (rest.dropWhile jsonWs).head? = some chRBrace then
      if (((rest.dropWhile jsonWs).drop 1).dropWhile jsonWs).isEmpty then some [] else none
    else
      match parseMembers (rest.length + 1) rest with
      | some (ms, r) => if (r.dropWhile jsonWs).isEmpty then some ms else none
      | none => none
  else none

/-- Python `dict.get(key, default)` on a parsed object. -/
def jGet (obj : List (String × JsonVal)) (k : String) (d : JsonVal) : JsonVal :=
  match obj.find? (fun kv => kv.1 = k) with
  | some kv => kv.2
  | none => d

/-- Python truthiness of a JSON value (`bool` as itself, `str` nonempty). -/
def pyTruthy (v : JsonVal) : Bool :=
  match v with
  | .bool b => b
  | .str s => s ≠ ""

/-! ### Relevance classifier client
(`analyze_and_rewrite_with_gemini_pipeline`, src/app.py lines 138-180) -/

/-- Outcome of the single HTTP request to the remote generative endpoint.
`netError` models `requests.RequestException` from the call itself;
`httpError` models `raise_for_status()` on a non-2xx reply (also a
`RequestException`); `okMalformed` models a 2xx reply whose body does not
contain the expected `candidates[0].content.parts[0].text` path (caught by
the generic handler). -/
inductive GemResp where
  | netError
  | httpError
  | okMalformed
  | ok (rawText : String)
deriving DecidableEq

/-- The cleaning step `raw_text.strip().lstrip('```json').rstrip('```').strip()`.
Note Python `lstrip`/`rstrip` take a character *set*, not a prefix. -/
def cleanGeminiText (raw : String) : String :=
  pyStrip (pyRStripChars [chBacktick]
    (pyLStripChars [chBacktick, 'j', 's', 'o', 'n'] (pyStrip raw)))

/-- `analyze_and_rewrite_with_gemini_pipeline(content, title)`.
`hasKey` is whether `config.GEMINI_API_KEY` is set.  The Python function
returns `parsed_json.get('is_ai_related', False)` verbatim; its only caller
uses that value exclusively in boolean position, so the embedding returns
its truth value.  The second component is the raw JSON value of
`rewritten_content` (a non-string value would make the caller's `.strip()`
raise, which the pipeline embedding models). -/
def analyzeGemini (hasKey : Bool) (resp : GemResp) (content title : String) :
    Bool × JsonVal :=
  if !hasKey then (true, .str content)
  else
    match resp with
    | .netError => (true, .str content)
    | .httpError => (true, .str content)
    | .okMalformed => (true, .str content)
    | .ok raw =>
      match jsonLoads (cleanGeminiText raw) with
      | none => (true, .str content)
      | some obj =>
        let isRel := pyTruthy (jGet obj "is_ai_related" (.bool false))
        let rewritten :=
          if isRel then jGet obj "rewritten_content" (.str "") else .str ""
        (isRel, rewritten)

/-! ### Company tagger (`extract_related_company_pipeline`, lines 130-136) -/

/-- The fixed ordered company list from the source. -/
def companies : List String :=
  ["Google", "OpenAI", "Meta", "Anthropic", "XAI", "Microsoft", "Apple",
   "Amazon", "NVIDIA", "Tesla"]

/-- The per-candidate test `f' {company.lower()} ' in f' {text.lower()} '`. -/
def companyHit (text company : String) : Bool :=
  pyContains (" " ++ pyLower text ++ " ") (" " ++ pyLower company ++ " ")

/-- `extract_related_company_pipeline(text)`: first list-order candidate that
occurs space-bounded in the lowered, space-padded text. -/
def extract_related_company_pipeline (text : String) : Option String :=
  companies.find? (fun company => companyHit text company)

/-! ### Date normalizer (`parse_publication_date_pipeline`, lines 114-128) -/

/-- First six components of a `time.struct_time` (year..second). -/
structure TimeTuple where
  year : Int
  month : Nat
  day : Nat
  hour : Nat
  minute : Nat
  second : Nat
deriving DecidableEq, Repr

/-- Days since 1970-01-01 of a civil date (proleptic Gregorian); the
arithmetic `datetime` performs internally. -/
def daysFromCivil (y : Int) (m d : Nat) : Int :=
  let y2 : Int := if m ≤ 2 then y - 1 else y
  let era : Int := Int.fdiv y2 400
  let yoe : Int := y2 - era * 400
  let mShift : Int := if 2 < m then (m : Int) - 3 else (m : Int) + 9
  let doy : Int := (153 * mShift + 2) / 5 + (d : Int) - 1
  let doe : Int := yoe * 365 + yoe / 4 - yoe / 100 + doy
  era * 146097 + doe - 719468

/-- Epoch seconds of `datetime(*tuple[:6], tzinfo=timezone.utc)`. -/
def tupleToEpoch (t : TimeTuple) : Int :=
  daysFromCivil t.year t.month t.day * 86400
    + (t.hour : Int) * 3600 + (t.minute : Int) * 60 + (t.second : Int)

/-- Result of the lenient text parser `dateutil.parser.parse`: wall-clock
epoch seconds plus the parsed UTC offset, if the text carried one.
`none` at the call site models a `ParserError`/`TypeError`. -/
structure TextParsed where
  naive : Int
  tz : Option Int
deriving DecidableEq, Repr

/-- `dt.astimezone(utc)` when a timezone is attached, else
`dt.replace(tzinfo=utc)`: both yield epoch seconds. -/
def toUtcEpoch (p : TextParsed) : Int := p.naive - p.tz.getD 0

/-- The optional date attributes of a feed entry.  `none` in a parsed field
models the attribute being absent or `None` (both skipped by the
`hasattr`-and-truthy test); `none` in a text field models `hasattr` failing. -/
structure EntryDates where
  published_parsed : Option TimeTuple
  updated_parsed : Option TimeTuple
  published : Option String
  updated : Option String
  created : Option String
deriving DecidableEq, Repr

/-- The `for field in date_text_fields` loop body: first present text field
whose parse succeeds wins; parse failure falls through to the next field. -/
def tryTextFields (texpar : String → Option TextParsed) :
    List (Option String) → Option Int
  | [] => none
  | none :: rest => tryTextFields texpar rest
  | some s :: rest =>
    match texpar s with
    | some p => some (toUtcEpoch p)
    | none => tryTextFields texpar rest

/-- `parse_publication_date_pipeline(entry)`; `texpar` embeds the external
lenient parser, `now` the current UTC time in epoch seconds. -/
def parse_publication_date_pipeline (texpar : String → Option TextParsed)
    (now : Int) (e : EntryDates) : Int :=
  match e.published_parsed with
  | some t => tupleToEpoch t
  | none =>
    match e.updated_parsed with
    | some t => tupleToEpoch t
    | none =>
      match tryTextFields texpar [e.published, e.updated, e.created] with
      | some v => v
      | none => now

/-! ### Ingestion pipeline (`run_pipeline`, lines 182-255) -/

/-- A persisted `Article` row (fields the pipeline writes). -/
structure Article where
  title : String
  content : String
  original_url : String
  category : String
  published_at : Int
  source : String
  related_company : Option String
deriving DecidableEq, Repr

/-- A registered `FeedSource` row. -/
structure SourceRec where
  key : String
  url : String
deriving DecidableEq, Repr

/-- A feedparser entry as the pipeline reads it.  `link = none` models the
`link` attribute being absent, in which case `entry.link` raises
`AttributeError`; `summary` is read with `getattr(entry, 'summary', '')`. -/
structure FeedEntry where
  title : String
  link : Option String
  summary : Option String
  dates : EntryDates
deriving DecidableEq, Repr

/-- What happened to one entry inside the per-entry `try` block. -/
inductive Outcome where
  | skippedStale
  | skippedDuplicate
  | skippedIrrelevant
  | skippedIntegrity
  | errorSkipped
  | persisted
deriving DecidableEq, Repr

/-- External collaborators of one run, held fixed across entries:
HTML-to-text stripping (BeautifulSoup), the classifier call
(content, title) ↦ (is_relevant, rewritten_content), the lenient date-text
parser and the current UTC time. -/
structure PipelineCtx where
  stripHtml : String → String
  classify : String → String → Bool × JsonVal
  texpar : String → Option TextParsed
  now : Int

/-- `key.split('-', 1)[0]`. -/
def keyOrigin (k : String) : String := String.mk (k.data.takeWhile (fun c => c ≠ '-'))

/-- `key.split('-', 1)[1]` (defined when the key contains a dash). -/
def keyCategory (k : String) : String :=
  String.mk ((k.data.dropWhile (fun c => c ≠ '-')).drop 1)

/-- `source_name_map.get(prefix, prefix)` with the fixed map
`{'TC': 'TechCrunch', 'Wired': 'Wired', 'AIbase': 'AIbase'}`. -/
def sourceNameFor (p : String) : String :=
  if p = "TC" then "TechCrunch"
  else if p = "Wired" then "Wired"
  else if p = "AIbase" then "AIbase"
  else p

/-- The `Article(...)` constructed at lines 234-242. -/
def mkArticle (ctx : PipelineCtx) (src : SourceRec) (e : FeedEntry) (u : String)
    (finalContent : String) (pubDate : Int) : Article :=
  { title := pySlice e.title 300
    content := finalContent
    original_url := u
    category := if src.key.data.contains '-' then keyCategory src.key else "General"
    published_at := pubDate
    source := sourceNameFor (keyOrigin src.key)
    related_company :=
      extract_related_company_pipeline (e.title ++ " " ++ ctx.stripHtml (e.summary.getD "")) }

/-- One iteration of `for entry in feed.entries` (lines 214-252): the
per-entry `try` block with its `IntegrityError` and generic handlers.
The store is the list of persisted articles; `db.session.commit()` raises
`IntegrityError` exactly when the new row collides with an existing row on
the unique `title` or `original_url` column. -/
def processEntry (ctx : PipelineCtx) (src : SourceRec) (s : List Article)
    (e : FeedEntry) : List Article × Outcome :=
  let pubDate := parse_publication_date_pipeline ctx.texpar ctx.now e.dates
  if 3 ≤ (ctx.now - pubDate).fdiv 86400 then (s, .skippedStale)
  else
    match e.link with
    | none => (s, .errorSkipped)
    | some u =>
      if u ≠ "" && s.any (fun a => a.original_url = u) then (s, .skippedDuplicate)
      else
        let origContent := ctx.stripHtml (e.summary.getD "")
        let res := ctx.classify origContent e.title
        if !res.1 then (s, .skippedIrrelevant)
        else
          match res.2 with
          | .bool _ => (s, .errorSkipped)
          | .str c =>
            if pyStrip c = "" then (s, .skippedIrrelevant)
            else
              let art := mkArticle ctx src e u c pubDate
              if s.any (fun a => a.title = art.title || a.original_url = u) then
                (s, .skippedIntegrity)
              else (s ++ [art], .persisted)

/-- Folding one source's entries through the per-entry step. -/
def processEntries (ctx : PipelineCtx) (src : SourceRec) (s : List Article)
    (es : List FeedEntry) : List Article :=
  es.foldl (fun acc e => (processEntry ctx src acc e).1) s

/-- Result of `feedparser.parse` for one source: the surrounding `try`
raised, or a document with its `bozo` flag and entry list. -/
inductive FeedFetch where
  | raised
  | parsed (bozo : Bool) (entries : List FeedEntry)
deriving DecidableEq, Repr

/-- How `run_pipeline` disposed of one source (lines 200-252). -/
inductive SourceOutcome where
  | skippedParseRaised
  | skippedEmpty
  | processed (bozoWarned : Bool)
deriving DecidableEq, Repr

/-- One iteration of `for feed_source in feeds`: a raised parse skips the
source; an empty entry list skips the source (after a bozo warning if any);
otherwise every entry is processed — a bozo feed with entries is processed
normally after only a log warning.  No other action is taken on
malformed/empty feeds. -/
def processSource (ctx : PipelineCtx) (src : SourceRec) (s : List Article)
    (f : FeedFetch) : List Article × SourceOutcome :=
  match f with
  | .raised => (s, .skippedParseRaised)
  | .parsed bozo entries =>
    if entries.isEmpty then (s, .skippedEmpty)
    else (processEntries ctx src s entries, .processed bozo)

/-! ### Run status and the mutual-exclusion guard
(`FETCH_STATUS`, `fetch_lock`, `run_background_fetch`, `fetch_status`) -/

/-- The values of the global `FETCH_STATUS`. -/
inductive FetchStatus where
  | idle
  | running
  | completed
  | error
deriving DecidableEq, Repr

/-- Process-wide state: whether `fetch_lock` is held and the current
`FETCH_STATUS`. -/
structure SysState where
  locked : Bool
  status : FetchStatus
deriving DecidableEq, Repr

/-- Atomic events of the run lifecycle: an accepted-or-rejected run trigger
(`fetch_lock.acquire(blocking=False)` then `FETCH_STATUS = "running"`),
normal run completion (`FETCH_STATUS = "completed"` then the `finally`
release), a raising run (`FETCH_STATUS = "error"` then release), and one
`/api/fetch-status` query. -/
inductive SysEv where
  | trigger
  | finishOk
  | finishErr
  | readStatus
deriving DecidableEq, Repr

/-- The transition function.  A trigger while the lock is held is rejected
and changes nothing; finish events only occur for an active run.  The
status query resets only a terminal (`completed`/`error`) value to `idle`. -/
def sysStep (st : SysState) (e : SysEv) : SysState :=
  match e with
  | .trigger => if st.locked then st else { locked := true, status := .running }
  | .finishOk => if st.locked then { locked := false, status := .completed } else st
  | .finishErr => if st.locked then { locked := false, status := .error } else st
  | .readStatus =>
    if st.status = .completed || st.status = .error then
      { st with status := .idle }
    else st

/-- The value `fetch_status` returns: the pre-reset status. -/
def observeStatus (st : SysState) : FetchStatus := st.status

/-- Run a trace of events from the initial state (lock free, status idle). -/
def sysRun (evs : List SysEv) : SysState :=
  evs.foldl sysStep { locked := false, status := .idle }

/-- The status-transition relation exactly as the claim states it:
stuttering, idle→running on start, running→completed / running→error on
finish, terminal→idle on a read. -/
def claimAllowedTrans (a b : FetchStatus) : Bool :=
  a = b
  || (a = .idle && b = .running)
  || (a = .running && b = .completed)
  || (a = .running && b = .error)
  || ((a = .completed || a = .error) && b = .idle)

/-- The transition relation the code actually realises: additionally a run
start from an unread terminal status (`completed`/`error` → `running`). -/
def codeAllowedTrans (a b : FetchStatus) : Bool :=
  claimAllowedTrans a b
  || ((a = .completed || a = .error) && b = .running)

/-! ### Run-trigger route (`fetch_news_route`, lines 329-359) -/

/-- The JSON value bound to `source_ids` after
`data.get('source_ids') if data else None`.  `absent` covers a missing
body or key (value `None`); `ids` a JSON array; `intv` a JSON number
(truthy when non-zero, but without a `len`). -/
inductive SourceIdsJson where
  | absent
  | ids (l : List Nat)
  | intv (n : Int)
deriving DecidableEq, Repr

/-- The HTTP response of the route. -/
inductive RouteResp where
  | busy
  | started (allSources : Bool)
  | serverError
deriving DecidableEq, Repr

/-- Observable effect of one route invocation: the response, whether the
background run thread was started, and whether the route handler itself
released `fetch_lock` (the `except` branch at line 358). -/
structure RouteResult where
  resp : RouteResp
  threadStarted : Bool
  releasedInRoute : Bool
deriving DecidableEq, Repr

/-- Python truthiness of the `source_ids` value. -/
def sourceIdsTruthy : SourceIdsJson → Bool
  | .absent => false
  | .ids l => !l.isEmpty
  | .intv n => n ≠ 0

/-- Whether `len(source_ids)` is defined (lists are sized, numbers raise
`TypeError`). -/
def sourceIdsSized : SourceIdsJson → Bool
  | .absent => false
  | .ids _ => true
  | .intv _ => false

/-- `fetch_news_route`: non-blocking acquire, background thread start, then
the success-message f-string, whose `len(source_ids)` raises for a truthy
non-sized value — after the thread has already been started — sending the
handler into the `except` branch that releases the lock again. -/
def fetchNewsRoute (lockHeld : Bool) (sourceIds : SourceIdsJson) : RouteResult :=
  if lockHeld then { resp := .busy, threadStarted := false, releasedInRoute := false }
  else if sourceIdsTruthy sourceIds then
    if sourceIdsSized sourceIds then
      { resp := .started false, threadStarted := true, releasedInRoute := false }
    else
      { resp := .serverError, threadStarted := true, releasedInRoute := true }
  else
    { resp := .started true, threadStarted := true, releasedInRoute := false }

/-- Total number of times `fetch_lock.release()` runs for one route call:
the background thread's `finally` releases once whenever the thread was
started, plus the route handler's own `except`-branch release. -/
def releasesForCall (r : RouteResult) : Nat :=
  (if r.threadStarted then 1 else 0) + (if r.releasedInRoute then 1 else 0)

/-! ### Shared concrete fixtures for witnesses -/

/-- A run context with trivial collaborators: HTML stripping as identity,
a classifier that accepts everything and passes content through, no
parseable text dates, time zero. -/
def ctxId : PipelineCtx :=
  { stripHtml := id
    classify := fun c _ => (true, .str c)
    texpar := fun _ => none
    now := 0 }

/-- The seeded TechCrunch AI source. -/
def srcTC : SourceRec :=
  { key := "TC-AI", url := "https://techcrunch.com/category/artificial-intelligence/feed/" }

/-- An entry record carrying no date information at all. -/
def noDates : EntryDates :=
  { published_parsed := none, updated_parsed := none
    published := none, updated := none, created := none }

/-- A plain well-formed feed entry. -/
def entSimple : FeedEntry :=
  { title := "Big AI news", link := some "http://x/1",
    summary := some "some ai body", dates := noDates }

/-! ## Claim theorems -/

/-- `List.find?` on a cons cell, in `if`-form. -/
theorem find?_cons_ite {α : Type} (p : α → Bool) (a : α) (l : List α) :
    (a :: l).find? p = if p a = true then some a else l.find? p := by
  by_cases h : p a = true <;> simp [List.find?_cons, h]

/-- **C9** (counterexample).  The claim "any text containing ` apple ` as a
whole word yields Apple" fails on `"google apple"`: `apple` does occur as a
whole word, but the tagger returns the earlier list candidate `Google`. -/
theorem company_tagger_apple_cex :
    companyHit "google apple" "Apple" = true ∧
    extract_related_company_pipeline "google apple" = some "Google" ∧
    extract_related_company_pipeline "google apple" ≠ some "Apple" := by
  decide

/-- **C9** (amended).  The tagger does a case-insensitive space-bounded
whole-word search and returns the first candidate in list order; text whose
only near-match is `snapple` yields none; text containing ` apple ` as a
whole word yields `Apple` provided no earlier-listed company also occurs as
a whole word. -/
theorem company_tagger_first_match (text : String) :
    extract_related_company_pipeline text =
      (if companyHit text "Google" then some "Google"
       else if companyHit text "OpenAI" then some "OpenAI"
       else if companyHit text "Meta" then some "Meta"
       else if companyHit text "Anthropic" then some "Anthropic"
       else if companyHit text "XAI" then some "XAI"
       else if companyHit text "Microsoft" then some "Microsoft"
       else if companyHit text "Apple" then some "Apple"
       else if companyHit text "Amazon" then some "Amazon"
       else if companyHit text "NVIDIA" then some "NVIDIA"
       else if companyHit text "Tesla" then some "Tesla"
       else none) ∧
    (companyHit text "Apple" = true →
      (∀ c ∈ ["Google", "OpenAI", "Meta", "Anthropic", "XAI", "Microsoft"],
        companyHit text c = false) →
      extract_related_company_pipeline text = some "Apple") ∧
    extract_related_company_pipeline "drink snapple today" = none := by
  refine ⟨?_, ?_, by decide⟩
  · simp only [extract_related_company_pipeline, companies, find?_cons_ite,
      List.find?_nil]
  · intro hap hnone
    have h1 := hnone "Google" (by simp)
    have h2 := hnone "OpenAI" (by simp)
    have h3 := hnone "Meta" (by simp)
    have h4 := hnone "Anthropic" (by simp)
    have h5 := hnone "XAI" (by simp)
    have h6 := hnone "Microsoft" (by simp)
    simp only [extract_related_company_pipeline, companies, find?_cons_ite,
      List.find?_nil, h1, h2, h3, h4, h5, h6, hap]
    simp

/-- **C9** witness: the amended Apple clause at a concrete text. -/
theorem company_tagger_first_match_witness :
    extract_related_company_pipeline "an apple a day" = some "Apple" :=
  (company_tagger_first_match "an apple a day").2.1 (by decide) (by decide)

/-- A text date field fails when it is absent or its parse raises. -/
def textFieldFails (texpar : String → Option TextParsed) (f : Option String) : Prop :=
  f = none ∨ ∃ s, f = some s ∧ texpar s = none

/-- **C8** (confirmed).  The date normalizer follows the strict precedence:
structured `published_parsed` first, then structured `updated_parsed`, both
built from the first six calendar components as a UTC instant; otherwise
the free-text fields `published`, `updated`, `created` in order, where a
parsed value with a timezone is converted to UTC and one without is taken
as UTC; otherwise the current time.  The last clause is the totality
guarantee: the function never fails, it degrades to "now". -/
theorem date_normalizer_precedence (texpar : String → Option TextParsed)
    (now : Int) (e : EntryDates) :
    (∀ t, e.published_parsed = some t →
      parse_publication_date_pipeline texpar now e = tupleToEpoch t) ∧
    (∀ t, e.published_parsed = none → e.updated_parsed = some t →
      parse_publication_date_pipeline texpar now e = tupleToEpoch t) ∧
    (∀ s p, e.published_parsed = none → e.updated_parsed = none →
      e.published = some s → texpar s = some p →
      parse_publication_date_pipeline texpar now e = toUtcEpoch p) ∧
    (∀ s p, e.published_parsed = none → e.updated_parsed = none →
      textFieldFails texpar e.published →
      e.updated = some s → texpar s = some p →
      parse_publication_date_pipeline texpar now e = toUtcEpoch p) ∧
    (∀ s p, e.published_parsed = none → e.updated_parsed = none →
      textFieldFails texpar e.published → textFieldFails texpar e.updated →
      e.created = some s → texpar s = some p →
      parse_publication_date_pipeline texpar now e = toUtcEpoch p) ∧
    (e.published_parsed = none → e.updated_parsed = none →
      textFieldFails texpar e.published → textFieldFails texpar e.updated →
      textFieldFails texpar e.created →
      parse_publication_date_pipeline texpar now e = now) ∧
    (∀ p : TextParsed, (p.tz = none → toUtcEpoch p = p.naive) ∧
      ∀ o, p.tz = some o → toUtcEpoch p = p.naive - o) := by
  have hfail : ∀ f, textFieldFails texpar f →
      ∀ rest, tryTextFields texpar (f :: rest) = tryTextFields texpar rest := by
    intro f hf rest
    rcases hf with h | ⟨s, hs, hp⟩
    · rw [h]; rfl
    · rw [hs]; simp [tryTextFields, hp]
  refine ⟨?_, ?_, ?_, ?_, ?_, ?_, ?_⟩
  · intro t ht
    simp [parse_publication_date_pipeline, ht]
  · intro t h1 h2
    simp [parse_publication_date_pipeline, h1, h2]
  · intro s p h1 h2 h3 h4
    simp [parse_publication_date_pipeline, h1, h2, h3, tryTextFields, h4]
  · intro s p h1 h2 hf h3 h4
    simp only [parse_publication_date_pipeline, h1, h2, hfail _ hf]
    simp [tryTextFields, h3, h4]
  · intro s p h1 h2 hf1 hf2 h3 h4
    simp only [parse_publication_date_pipeline, h1, h2, hfail _ hf1, hfail _ hf2]
    simp [tryTextFields, h3, h4]
  · intro h1 h2 hf1 hf2 hf3
    simp only [parse_publication_date_pipeline, h1, h2, hfail _ hf1, hfail _ hf2,
      hfail _ hf3]
    rfl
  · intro p
    constructor
    · intro h; simp [toUtcEpoch, h]
    · intro o h; simp [toUtcEpoch, h]

/-- A sample structured timestamp. -/
def ttSample : TimeTuple :=
  { year := 2026, month := 10, day := 12, hour := 1, minute := 2, second := 3 }

/-- A sample parsed text date with no timezone. -/
def tpSample : TextParsed := { naive := 777, tz := none }

/-- **C8** witness: concrete instances of the structured-field clause, the
timezone-free text clause and the degrade-to-now clause. -/
theorem date_normalizer_precedence_witness :
    parse_publication_date_pipeline (fun _ => none) 1000
      { noDates with published_parsed := some ttSample }
      = tupleToEpoch ttSample ∧
    parse_publication_date_pipeline
      (fun s => if s = "Mon" then some tpSample else none) 1000
      { noDates with published := some "x", updated := some "Mon" }
      = 777 ∧
    parse_publication_date_pipeline (fun _ => none) 1000
      { noDates with created := some "garbage" } = 1000 := by
  refine ⟨(date_normalizer_precedence _ 1000 _).1 _ rfl, ?_, ?_⟩
  · have h := (date_normalizer_precedence
      (fun s => if s = "Mon" then some tpSample else none) 1000
      { noDates with published := some "x", updated := some "Mon" }).2.2.2.1
      "Mon" tpSample rfl rfl
      (Or.inr ⟨"x", rfl, by decide⟩) rfl (by decide)
    simpa [toUtcEpoch, tpSample] using h
  · exact (date_normalizer_precedence (fun _ => none) 1000
      { noDates with created := some "garbage" }).2.2.2.2.2.1 rfl rfl
      (Or.inl rfl) (Or.inl rfl) (Or.inr ⟨"garbage", rfl, rfl⟩)

/-- **C6** (confirmed).  The classifier client returns
`(relevant = true, summary = original content)` whenever no remote
credential is configured, the request fails with a network error, the
reply is non-2xx, or the (fence-cleaned) payload is not parseable JSON;
it never raises and never discards the article. -/
theorem classifier_fallback (content title raw : String) :
    (∀ resp, analyzeGemini false resp content title = (true, .str content)) ∧
    analyzeGemini true .netError content title = (true, .str content) ∧
    analyzeGemini true .httpError content title = (true, .str content) ∧
    analyzeGemini true .okMalformed content title = (true, .str content) ∧
    (jsonLoads (cleanGeminiText raw) = none →
      analyzeGemini true (.ok raw) content title = (true, .str content)) := by
  refine ⟨fun resp => rfl, rfl, rfl, rfl, fun h => ?_⟩
  simp [analyzeGemini, h]

/-- **C6** witness: a 2xx reply whose text is not JSON falls back to
`(true, original content)`. -/
theorem classifier_fallback_witness :
    jsonLoads (cleanGeminiText "I cannot classify that article.") = none ∧
    analyzeGemini true (.ok "I cannot classify that article.") "orig body" "t"
      = (true, .str "orig body") :=
  ⟨by decide,
   (classifier_fallback "orig body" "t" "I cannot classify that article.").2.2.2.2
     (by decide)⟩

/-- **C1** (counterexample).  On a source whose fetch reports a malformed
document and yields zero entries, the run does not invoke any fallback
scraper and persists nothing from that source: it logs and skips to the
next source, leaving the store unchanged. -/
theorem no_fallback_scraper_cex :
    processSource ctxId srcTC [] (.parsed true []) = ([], .skippedEmpty) := by
  decide

/-- **C1** (amended).  For every source, a fetch whose surrounding `try`
raises skips the source; a fetch yielding zero entries (malformed or not)
skips the source; a malformed (`bozo`) fetch that does yield entries is
processed like a healthy one after only a warning.  No fallback scraping
happens in any of these cases: the store leaving a skipped source equals
the store entering it. -/
theorem source_dispatch (ctx : PipelineCtx) (src : SourceRec)
    (s : List Article) (bozo : Bool) :
    processSource ctx src s .raised = (s, .skippedParseRaised) ∧
    processSource ctx src s (.parsed bozo []) = (s, .skippedEmpty) ∧
    (∀ es, es ≠ [] →
      processSource ctx src s (.parsed bozo es)
        = (processEntries ctx src s es, .processed bozo)) := by
  refine ⟨rfl, rfl, fun es hes => ?_⟩
  simp [processSource, List.isEmpty_iff, hes]

/-- **C1** witness for the amended claim: a bozo feed with one entry is
still processed entry-by-entry. -/
theorem source_dispatch_witness :
    processSource ctxId srcTC [] (.parsed true [entSimple])
      = (processEntries ctxId srcTC [] [entSimple], .processed true) :=
  (source_dispatch ctxId srcTC [] true).2.2 [entSimple] (by simp)

/-- **C2** (code bug).  The busy rejection works: a trigger while the lock
is held is refused, starts no thread and releases nothing.  But the guard
is *not* released exactly once per run on every exit path: a request body
whose `source_ids` is a truthy non-sized JSON value (e.g. the number `5`)
makes the success-message `len(source_ids)` raise *after* the background
thread has started, so the route's `except` branch releases the lock while
the run still holds it — two releases for one run, and the lock is free
while the run is active, so a second trigger is accepted and a second
pipeline run executes concurrently with the first. -/
theorem fetch_news_guard_double_release :
    (∀ ids, fetchNewsRoute true ids
      = { resp := .busy, threadStarted := false, releasedInRoute := false }) ∧
    fetchNewsRoute false (.intv 5)
      = { resp := .serverError, threadStarted := true, releasedInRoute := true } ∧
    releasesForCall (fetchNewsRoute false (.intv 5)) = 2 ∧
    (fetchNewsRoute false (.ids [1])).threadStarted = true ∧
    (∀ ids, releasesForCall (fetchNewsRoute false (.ids ids)) = 1) ∧
    releasesForCall (fetchNewsRoute false .absent) = 1 := by
  refine ⟨fun ids => rfl, by decide, by decide, by decide,
    fun ids => by cases ids <;> rfl, by decide⟩

/-- The invariant coupling the guard to the status: the lock is held
exactly while a run is marked running. -/
def sysInvP (st : SysState) : Prop := st.locked = true ↔ st.status = .running

/-- One step preserves the lock/status coupling. -/
theorem sysStep_preserves_inv (st : SysState) (e : SysEv) (h : sysInvP st) :
    sysInvP (sysStep st e) := by
  rcases st with ⟨l, s⟩
  cases l <;> cases s <;> cases e <;>
    simp_all [sysInvP, sysStep]

/-- Every trace from the initial state satisfies the coupling invariant. -/
theorem sysRun_inv (evs : List SysEv) : sysInvP (sysRun evs) := by
  suffices h : ∀ st, sysInvP st → sysInvP (evs.foldl sysStep st) from
    h _ (by simp [sysInvP])
  induction evs with
  | nil => intro st h; exact h
  | cons e rest ih => intro st h; exact ih _ (sysStep_preserves_inv st e h)

/-- **C3** (counterexample).  The claimed transition set is incomplete:
after a run completes and before any status query, a new accepted trigger
moves the status directly from `completed` to `running` — a transition the
claim excludes (it allows leaving `completed` only to `idle` via a read).
The state `(lock free, completed)` is reached by the concrete trace
`[trigger, finishOk]`. -/
theorem status_completed_to_running_cex :
    sysRun [.trigger, .finishOk] = { locked := false, status := .completed } ∧
    (sysStep (sysRun [.trigger, .finishOk]) .trigger).status = .running ∧
    claimAllowedTrans .completed .running = false := by
  decide

/-- **C3** (amended).  The status takes only the four values, and on every
state reachable from start the transitions are exactly the claimed ones
plus `completed→running` and `error→running` when a new run is triggered
off an unread terminal value; a status query returns the pre-reset value,
resets only a terminal value to idle, and leaves idle/running unchanged;
a finished run moves running to completed (no fatal exception) or to error
(the run raised). -/
theorem status_machine_transitions (st : SysState) (h : sysInvP st) (e : SysEv) :
    codeAllowedTrans st.status (sysStep st e).status = true ∧
    observeStatus st = st.status ∧
    ((st.status = .idle ∨ st.status = .running) → sysStep st .readStatus = st) ∧
    ((st.status = .completed ∨ st.status = .error) →
      (sysStep st .readStatus).status = .idle) ∧
    (st.locked = false → (sysStep st .trigger).status = .running) ∧
    (st.locked = true → sysStep st .finishOk
      = { locked := false, status := .completed }) ∧
    (st.locked = true → sysStep st .finishErr
      = { locked := false, status := .error }) := by
  rcases st with ⟨l, s⟩
  cases l <;> cases s <;> cases e <;>
    simp_all [sysInvP, sysStep, observeStatus, codeAllowedTrans, claimAllowedTrans]

/-- **C3** witness: the amended transition facts at the reachable state
`(lock free, completed)` under a trigger. -/
theorem status_machine_transitions_witness :
    codeAllowedTrans (SysState.mk false .completed).status
      (sysStep (SysState.mk false .completed) .trigger).status = true ∧
    observeStatus (SysState.mk false .completed) = .completed ∧
    (sysStep (SysState.mk false .completed) .readStatus).status = .idle := by
  have h := status_machine_transitions (SysState.mk false .completed)
    (by simp [sysInvP]) .trigger
  exact ⟨h.1, h.2.1, h.2.2.2.1 (Or.inl rfl)⟩

/-- Case analysis of one entry step: either the store is unchanged and the
outcome is not `persisted`, or every persistence gate passed and exactly
the constructed article was appended. -/
theorem processEntry_spec (ctx : PipelineCtx) (src : SourceRec)
    (s : List Article) (e : FeedEntry) :
    ((processEntry ctx src s e).1 = s ∧ (processEntry ctx src s e).2 ≠ .persisted) ∨
    (∃ u c,
      ¬ 3 ≤ (ctx.now
        - parse_publication_date_pipeline ctx.texpar ctx.now e.dates).fdiv 86400 ∧
      e.link = some u ∧
      ¬(¬u = "" ∧ ∃ a ∈ s, a.original_url = u) ∧
      ctx.classify (ctx.stripHtml (e.summary.getD "")) e.title = (true, .str c) ∧
      pyStrip c ≠ "" ∧
      ¬(∃ a ∈ s, a.title = pySlice e.title 300 ∨ a.original_url = u) ∧
      processEntry ctx src s e
        = (s ++ [mkArticle ctx src e u c
            (parse_publication_date_pipeline ctx.texpar ctx.now e.dates)],
           .persisted)) := by
  by_cases hstale : 3 ≤ (ctx.now
      - parse_publication_date_pipeline ctx.texpar ctx.now e.dates).fdiv 86400
  · left; constructor <;> simp [processEntry, hstale]
  · cases hlink : e.link with
    | none => left; constructor <;> simp [processEntry, hstale, hlink]
    | some u =>
      by_cases hdup : ¬u = "" ∧ ∃ a ∈ s, a.original_url = u
      · left; constructor <;> simp [processEntry, hstale, hlink, hdup]
      · rcases hres : ctx.classify (ctx.stripHtml (e.summary.getD "")) e.title
          with ⟨rel, fc⟩
        cases rel with
        | false =>
          left; constructor <;> simp [processEntry, hstale, hlink, hdup, hres]
        | true =>
          cases fc with
          | bool b =>
            left; constructor <;> simp [processEntry, hstale, hlink, hdup, hres]
          | str c =>
            by_cases hstrip : pyStrip c = ""
            · left; constructor <;>
                simp [processEntry, hstale, hlink, hdup, hres, hstrip]
            · by_cases hconf :
                ∃ a ∈ s, a.title = pySlice e.title 300 ∨ a.original_url = u
              · left; constructor <;>
                  simp [processEntry, mkArticle, hstale, hlink, hdup, hres, hstrip,
                    hconf]
              · right
                refine ⟨u, c, hstale, rfl, hdup, rfl, hstrip, hconf, ?_⟩
                simp [processEntry, mkArticle, hstale, hlink, hdup, hres, hstrip,
                  hconf]

/-- An entry whose URL pre-check fires is skipped as a duplicate. -/
theorem processEntry_dup (ctx : PipelineCtx) (src : SourceRec) (s : List Article)
    (e : FeedEntry) (u : String)
    (hstale : ¬ 3 ≤ (ctx.now
      - parse_publication_date_pipeline ctx.texpar ctx.now e.dates).fdiv 86400)
    (hlink : e.link = some u) (hu : ¬u = "")
    (hmem : ∃ a ∈ s, a.original_url = u) :
    processEntry ctx src s e = (s, .skippedDuplicate) := by
  simp only [processEntry, hlink]
  rw [if_neg hstale]
  split
  · rfl
  · rename_i h
    simp only [decide_eq_true_eq, Bool.and_eq_true, List.any_eq_true] at h
    rcases hmem with ⟨a, ha, hau⟩
    exact absurd ⟨hu, a, ha, hau⟩ h

/-- An entry that reaches commit against a store already holding its title
or URL is rolled back as an integrity skip. -/
theorem processEntry_integrity (ctx : PipelineCtx) (src : SourceRec)
    (s : List Article) (e : FeedEntry) (u c : String)
    (hstale : ¬ 3 ≤ (ctx.now
      - parse_publication_date_pipeline ctx.texpar ctx.now e.dates).fdiv 86400)
    (hlink : e.link = some u)
    (hdup : ¬(¬u = "" ∧ ∃ a ∈ s, a.original_url = u))
    (hres : ctx.classify (ctx.stripHtml (e.summary.getD "")) e.title
      = (true, .str c))
    (hstrip : ¬ pyStrip c = "")
    (hconf : ∃ a ∈ s, a.title = pySlice e.title 300 ∨ a.original_url = u) :
    processEntry ctx src s e = (s, .skippedIntegrity) := by
  simp [processEntry, hstale, hlink, hdup, hres, hstrip, mkArticle, hconf]

/-- **C4** (confirmed).  Ingestion is idempotent per entry: running the
same entry a second time over the store the first run produced leaves the
store unchanged, and when the first run persisted the article, the second
is skipped as an expected non-error outcome — by the URL pre-check when
the entry has a non-empty link, otherwise by the silent
`IntegrityError`-to-skip handling at commit.  Run continuation is inherent:
every outcome is a normal return of the per-entry step. -/
theorem ingestion_idempotent (ctx : PipelineCtx) (src : SourceRec)
    (s : List Article) (e : FeedEntry) :
    (processEntry ctx src (processEntry ctx src s e).1 e).1
      = (processEntry ctx src s e).1 ∧
    ((processEntry ctx src s e).2 = .persisted →
      (processEntry ctx src (processEntry ctx src s e).1 e).2 = .skippedDuplicate ∨
      (processEntry ctx src (processEntry ctx src s e).1 e).2 = .skippedIntegrity) := by
  rcases processEntry_spec ctx src s e with ⟨hs, hnp⟩ |
    ⟨u, c, hstale, hlink, hdup, hres, hstrip, hconf, heq⟩
  · refine ⟨?_, fun hp => absurd hp hnp⟩
    rw [hs]
    exact hs
  · rw [heq]
    by_cases hu : u = ""
    · have h2 := processEntry_integrity ctx src
        (s ++ [mkArticle ctx src e u c
          (parse_publication_date_pipeline ctx.texpar ctx.now e.dates)])
        e u c hstale hlink (by simp [hu])
        hres hstrip
        ⟨mkArticle ctx src e u c
          (parse_publication_date_pipeline ctx.texpar ctx.now e.dates),
         by simp, Or.inl (by simp [mkArticle])⟩
      rw [h2]
      exact ⟨rfl, fun _ => Or.inr rfl⟩
    · have h2 := processEntry_dup ctx src
        (s ++ [mkArticle ctx src e u c
          (parse_publication_date_pipeline ctx.texpar ctx.now e.dates)])
        e u hstale hlink hu
        ⟨mkArticle ctx src e u c
          (parse_publication_date_pipeline ctx.texpar ctx.now e.dates),
         by simp, by simp [mkArticle]⟩
      rw [h2]
      exact ⟨rfl, fun _ => Or.inl rfl⟩

/-- **C4** witness: a concrete entry is persisted by the first run and
skipped by the URL pre-check on the second. -/
theorem ingestion_idempotent_witness :
    (processEntry ctxId srcTC (processEntry ctxId srcTC [] entSimple).1 entSimple).1
      = (processEntry ctxId srcTC [] entSimple).1 ∧
    ((processEntry ctxId srcTC
        (processEntry ctxId srcTC [] entSimple).1 entSimple).2 = .skippedDuplicate ∨
     (processEntry ctxId srcTC
        (processEntry ctxId srcTC [] entSimple).1 entSimple).2 = .skippedIntegrity) :=
  ⟨(ingestion_idempotent ctxId srcTC [] entSimple).1,
   (ingestion_idempotent ctxId srcTC [] entSimple).2 (by decide)⟩

/-- **C5** (confirmed).  An article is persisted only when the classifier
returned `(is_relevant = true, summary)` with a summary that is a string
and non-empty after trimming, and the persisted content is exactly that
summary; conversely a not-relevant classification, or a relevant one with
an empty/whitespace-only summary, leaves the store unchanged with no
write. -/
theorem persisted_requires_relevant (ctx : PipelineCtx) (src : SourceRec)
    (s : List Article) (e : FeedEntry) :
    ((processEntry ctx src s e).2 = .persisted →
      ∃ art, (processEntry ctx src s e).1 = s ++ [art] ∧
        ctx.classify (ctx.stripHtml (e.summary.getD "")) e.title
          = (true, .str art.content) ∧
        pyStrip art.content ≠ "") ∧
    ((ctx.classify (ctx.stripHtml (e.summary.getD "")) e.title).1 = false →
      (processEntry ctx src s e).1 = s ∧
      (processEntry ctx src s e).2 ≠ .persisted) ∧
    (∀ c, ctx.classify (ctx.stripHtml (e.summary.getD "")) e.title
        = (true, .str c) → pyStrip c = "" →
      (processEntry ctx src s e).1 = s ∧
      (processEntry ctx src s e).2 ≠ .persisted) := by
  rcases processEntry_spec ctx src s e with ⟨hs, hnp⟩ |
    ⟨u, c, hstale, hlink, hdup, hres, hstrip, hconf, heq⟩
  · exact ⟨fun hp => absurd hp hnp, fun _ => ⟨hs, hnp⟩, fun _ _ _ => ⟨hs, hnp⟩⟩
  · refine ⟨fun _ => ?_, fun hfalse => ?_, fun c2 hres2 hstrip2 => ?_⟩
    · refine ⟨mkArticle ctx src e u c
        (parse_publication_date_pipeline ctx.texpar ctx.now e.dates), ?_, ?_, ?_⟩
      · rw [heq]
      · simpa [mkArticle] using hres
      · simpa [mkArticle] using hstrip
    · rw [hres] at hfalse
      simp at hfalse
    · rw [hres] at hres2
      simp only [Prod.mk.injEq, JsonVal.str.injEq] at hres2
      exact absurd (hres2.2 ▸ hstrip2) hstrip

/-- **C5** witness: a persisted concrete entry, with its classifier verdict
and non-blank content exposed by the theorem. -/
theorem persisted_requires_relevant_witness :
    ∃ art, (processEntry ctxId srcTC [] entSimple).1 = [] ++ [art] ∧
      ctxId.classify (ctxId.stripHtml (entSimple.summary.getD "")) entSimple.title
        = (true, .str art.content) ∧
      pyStrip art.content ≠ "" :=
  (persisted_requires_relevant ctxId srcTC [] entSimple).1 (by decide)

/-- A feed entry whose title has 301 characters. -/
def entLong : FeedEntry :=
  { title := String.mk (List.replicate 301 'a'), link := some "http://x/long1",
    summary := some "body one", dates := noDates }

/-- A different entry sharing the first 300 title characters with
`entLong` but with a different full title and a different URL. -/
def entLong2 : FeedEntry :=
  { title := String.mk (List.replicate 300 'a' ++ ['z', 'z']),
    link := some "http://x/long2", summary := some "body two", dates := noDates }

/-- **C10** (confirmed).  Every persisted article stores exactly the first
300 characters of the entry title; concretely, a 301-character title is
silently truncated to 300 characters and still persisted, and a second
entry sharing that 300-character prefix (with a different URL and a
different full title) is rejected at commit as an integrity skip — title
uniqueness is decided on the truncated prefix. -/
theorem title_truncated_to_300 :
    (∀ (ctx : PipelineCtx) (src : SourceRec) (s : List Article) (e : FeedEntry),
      (processEntry ctx src s e).2 = .persisted →
      ∃ art, (processEntry ctx src s e).1 = s ++ [art] ∧
        art.title = pySlice e.title 300) ∧
    (processEntry ctxId srcTC [] entLong).2 = .persisted ∧
    (processEntry ctxId srcTC [] entLong).1.map (fun a => a.title)
      = [String.mk (List.replicate 300 'a')] ∧
    processEntry ctxId srcTC (processEntry ctxId srcTC [] entLong).1 entLong2
      = ((processEntry ctxId srcTC [] entLong).1, .skippedIntegrity) := by
  refine ⟨fun ctx src s e hp => ?_, by decide, by decide, by decide⟩
  rcases processEntry_spec ctx src s e with ⟨_, hnp⟩ |
    ⟨u, c, _, _, _, _, _, _, heq⟩
  · exact absurd hp hnp
  · refine ⟨mkArticle ctx src e u c
      (parse_publication_date_pipeline ctx.texpar ctx.now e.dates), ?_, ?_⟩
    · rw [heq]
    · simp [mkArticle]

/-- **C10** witness: the universal clause applied to the concrete
301-character-title entry. -/
theorem title_truncated_to_300_witness :
    ∃ art, (processEntry ctxId srcTC [] entLong).1 = [] ++ [art] ∧
      art.title = pySlice entLong.title 300 :=
  title_truncated_to_300.1 ctxId srcTC [] entLong (by decide)

/-- Two `some`-valued facts about the same option identify the contents. -/
theorem option_some_unique {α : Type} {o : Option α} {c a : α}
    (h : o = some c) (ha : o = some a) : a = c := by
  rw [h] at ha
  exact (Option.some.inj ha).symm

/-- `strip` is the identity on a list whose two ends are non-whitespace. -/
theorem stripL_eq_self {l : List Char} {b e : Char}
    (hb : l.head? = some b) (hbs : pyIsSpace b = false)
    (he : l.getLast? = some e) (hes : pyIsSpace e = false) : stripL l = l := by
  unfold stripL
  have h1 : l.dropWhile pyIsSpace = l := by
    cases l with
    | nil => rfl
    | cons x t =>
      have hx : x = b := option_some_unique hb rfl
      simp [List.dropWhile_cons, hx, hbs]
  rw [h1]
  have h2 : l.reverse.dropWhile pyIsSpace = l.reverse := by
    cases hr : l.reverse with
    | nil => rfl
    | cons y t2 =>
      have hy : l.reverse.head? = some y := by rw [hr]; rfl
      rw [List.head?_reverse] at hy
      have hye : y = e := option_some_unique he hy
      simp [List.dropWhile_cons, hye, hes]
  rw [h2, List.reverse_reverse]

/-- The fence-cleaning step recovers a JSON object exactly from a
`'''json ... '''`-wrapped response (backticks): Python's character-set
`lstrip`/`rstrip` stop at the space separating the fence from the object,
and the object's own braces stop the final whitespace strip. -/
theorem cleanGeminiText_fenced (obj : String)
    (hh : obj.data.head? = some chLBrace)
    (hl : obj.data.getLast? = some chRBrace) :
    cleanGeminiText ("```json " ++ obj ++ " ```") = obj := by
  obtain ⟨L⟩ := obj
  have hh' : L.head? = some chLBrace := hh
  have hl' : L.getLast? = some chRBrace := hl
  obtain ⟨L1, hL1⟩ : ∃ t, L = chLBrace :: t := by
    cases L with
    | nil => exact absurd hh' (by simp)
    | cons a t => exact ⟨t, by rw [option_some_unique hh' rfl]⟩
  have hbt : pyIsSpace chBacktick = false := by decide
  -- outer strip: both ends are backticks, nothing is removed
  have hhead : (("```json ".data ++ L) ++ " ```".data).head? = some chBacktick := rfl
  have hlast : (("```json ".data ++ L) ++ " ```".data).getLast? = some chBacktick := by
    rw [List.getLast?_eq_head?_reverse, List.reverse_append]
    rfl
  have h1 : stripL (("```json ".data ++ L) ++ " ```".data)
      = ("```json ".data ++ L) ++ " ```".data :=
    stripL_eq_self hhead hbt hlast hbt
  -- character-set lstrip eats the fence up to the separating space
  have h2 : ∀ X : List Char,
      List.dropWhile (fun c => decide (c ∈ [chBacktick, 'j', 's', 'o', 'n']))
        ("```json ".data ++ X) = ' ' :: X := fun X => rfl
  -- character-set rstrip eats the closing fence up to the separating space
  have h3 : ∀ X : List Char,
      List.dropWhile (fun c => decide (c ∈ [chBacktick]))
        ((" ```".data).reverse ++ X) = ' ' :: X := fun X => rfl
  -- assemble
  show pyStrip (pyRStripChars [chBacktick]
    (pyLStripChars [chBacktick, 'j', 's', 'o', 'n']
      (pyStrip ("```json " ++ String.mk L ++ " ```")))) = String.mk L
  rw [show pyStrip ("```json " ++ String.mk L ++ " ```")
      = String.mk (("```json ".data ++ L) ++ " ```".data) by
    show String.mk (stripL (("```json " ++ String.mk L ++ " ```").data)) = _
    rw [String.data_append, String.data_append]
    show String.mk (stripL (("```json ".data ++ L) ++ " ```".data)) = _
    rw [h1]]
  rw [show pyLStripChars [chBacktick, 'j', 's', 'o', 'n']
        (String.mk (("```json ".data ++ L) ++ " ```".data))
      = String.mk (' ' :: (L ++ " ```".data)) by
    show String.mk (List.dropWhile
        (fun c => decide (c ∈ [chBacktick, 'j', 's', 'o', 'n']))
        (("```json ".data ++ L) ++ " ```".data)) = _
    rw [List.append_assoc, h2]]
  rw [show pyRStripChars [chBacktick] (String.mk (' ' :: (L ++ " ```".data)))
      = String.mk (' ' :: (L ++ [' '])) by
    show String.mk ((List.dropWhile (fun c => decide (c ∈ [chBacktick]))
        ((' ' :: (L ++ " ```".data)).reverse)).reverse) = _
    have hrev : (' ' :: (L ++ " ```".data)).reverse
        = (" ```".data).reverse ++ (L.reverse ++ [' ']) := by
      rw [List.reverse_cons, List.reverse_append, List.append_assoc]
    rw [hrev, h3, List.reverse_cons, List.reverse_append, List.reverse_reverse]
    simp]
  -- final strip removes exactly the two separating spaces
  show String.mk (stripL (' ' :: (L ++ [' ']))) = String.mk L
  have h4 : List.dropWhile pyIsSpace (' ' :: (L ++ [' '])) = L ++ [' '] := by
    rw [List.dropWhile_cons, if_pos (by decide), hL1, List.cons_append,
      List.dropWhile_cons, if_neg (by decide)]
  have h5 : List.dropWhile pyIsSpace ((L ++ [' ']).reverse) = L.reverse := by
    rw [List.reverse_append]
    show List.dropWhile pyIsSpace (' ' :: L.reverse) = L.reverse
    rw [List.dropWhile_cons, if_pos (by decide)]
    cases hr : L.reverse with
    | nil => rfl
    | cons y t2 =>
      have hy : L.reverse.head? = some y := by rw [hr]; rfl
      rw [List.head?_reverse] at hy
      have hye : y = chRBrace := option_some_unique hl' hy
      have hsp : pyIsSpace chRBrace = false := by decide
      simp [List.dropWhile_cons, hye, hsp]
  unfold stripL
  rw [h4, h5, List.reverse_reverse]

/-- The scenario's JSON object text. -/
def fencedObj : String :=
  "\x7b\"is_ai_related\": true, \"rewritten_content\": \"X\"\x7d"

/-- The scenario's fenced classifier response. -/
def fencedResp : String := "```json " ++ fencedObj ++ " ```"

/-- A run context whose classifier call yields the fenced scenario reply. -/
def ctxFenced : PipelineCtx :=
  { stripHtml := id
    classify := fun c t => analyzeGemini true (.ok fencedResp) c t
    texpar := fun _ => none
    now := 0 }

/-- **C7** (confirmed).  For every classifier reply of the form
`'''json <object> '''` (backticks) whose object text starts with `{` and
ends with `}` — in particular the scenario reply with
`{"is_ai_related": true, "rewritten_content": "X"}` — the client strips
the fence markers and parses the inner object; on the scenario reply the
classification is `(true, "X")` for any article, and the pipeline persists
the article with content `"X"`. -/
theorem fenced_response_parsed :
    (∀ obj : String, obj.data.head? = some chLBrace →
      obj.data.getLast? = some chRBrace →
      cleanGeminiText ("```json " ++ obj ++ " ```") = obj) ∧
    cleanGeminiText fencedResp = fencedObj ∧
    jsonLoads fencedObj
      = some [("is_ai_related", .bool true), ("rewritten_content", .str "X")] ∧
    (∀ content title, analyzeGemini true (.ok fencedResp) content title
      = (true, .str "X")) ∧
    (processEntry ctxFenced srcTC [] entSimple).2 = .persisted ∧
    (processEntry ctxFenced srcTC [] entSimple).1.map (fun a => a.content)
      = ["X"] := by
  refine ⟨fun obj h1 h2 => cleanGeminiText_fenced obj h1 h2,
    cleanGeminiText_fenced fencedObj (by decide) (by decide),
    by decide, fun content title => rfl, by decide, by decide⟩

/-- **C7** witness: the universal fence clause at the scenario's concrete
object text. -/
theorem fenced_response_parsed_witness :
    cleanGeminiText ("```json " ++ fencedObj ++ " ```") = fencedObj :=
  fenced_response_parsed.1 fencedObj (by decide) (by decide)

end NewsReader
